import Mathlib

/-!
Verification development for the windows_emulator facade
(src/windows-emulator/windows_emulator.hpp) and its spec.

Port mappings, `map_port`, `current_thread` and the `emulator_settings`
defaults are embedded directly from the header's inline bodies.
`serialize`/`deserialize`, `save_snapshot`/`restore_snapshot`, the
scheduler run loop, syscall dispatch and error surfacing are declared in
the header but their bodies are not part of the sources; those are
modelled from the spec, as marked on each definition.
-/

namespace WinEmu

/-- Association lookup over a list of key/value pairs; mirrors
`std::unordered_map::find` (keys are unique in an `unordered_map`). -/
def assoc_find {α : Type} : List (Nat × α) → Nat → Option α
  | [], _ => none
  | (k, v) :: rest, key => if k = key then some v else assoc_find rest key

/-- Embeds `windows_emulator::get_host_port`: look up the emulator port in
`port_mappings_`; if absent, the port is returned unchanged. -/
def get_host_port (m : List (Nat × Nat)) (emulator_port : Nat) : Nat :=
  match assoc_find m emulator_port with
  | none => emulator_port
  | some h => h

/-- Embeds `windows_emulator::get_emulator_port`: scan the mappings for the
first entry whose mapped (host) value equals `host_port`; return its key,
or `host_port` itself if no entry matches. -/
def get_emulator_port : List (Nat × Nat) → Nat → Nat
  | [], host_port => host_port
  | (k, v) :: rest, host_port =>
    if v = host_port then k else get_emulator_port rest host_port

/-- Insert-or-assign on the association list; mirrors
`port_mappings_[emulator_port] = host_port`. -/
def pm_assign : List (Nat × Nat) → Nat → Nat → List (Nat × Nat)
  | [], p, h => [(p, h)]
  | (k, v) :: rest, p, h =>
    if k = p then (k, h) :: rest else (k, v) :: pm_assign rest p h

/-- Erase the entry for a key, if present; mirrors `find` + `erase`. -/
def pm_erase : List (Nat × Nat) → Nat → List (Nat × Nat)
  | [], _ => []
  | (k, v) :: rest, p => if k = p then rest else (k, v) :: pm_erase rest p

/-- Embeds `windows_emulator::map_port`: a mapping with distinct ports is
installed or overwritten; mapping a port to itself removes any existing
mapping for that port instead of storing an identity entry. -/
def map_port (m : List (Nat × Nat)) (emulator_port host_port : Nat) :
    List (Nat × Nat) :=
  if emulator_port ≠ host_port then pm_assign m emulator_port host_port
  else pm_erase m emulator_port

/-- Embeds `emulator_settings` with its member initializers
(paths as strings, maps and sets as lists). -/
structure emulator_settings where
  emulation_root : String := ""
  registry_directory : String := "./registry"
  verbose_calls : Bool := false
  disable_logging : Bool := false
  silent_until_main : Bool := false
  use_relative_time : Bool := false
  port_mappings : List (Nat × Nat) := []
  path_mappings : List (String × String) := []
  modules : List String := []
deriving DecidableEq

/-- A thread of the emulated process, identified by its id. -/
structure emulator_thread where
  tid : Nat
deriving DecidableEq

/-- The slice of `process_context` that `current_thread` reads:
`active_thread` is an `emulator_thread*`, i.e. at most one designated
thread (`none` models a null pointer). -/
structure process_context where
  active_thread : Option emulator_thread
deriving DecidableEq

/-- Embeds `windows_emulator::current_thread`: throws
"No active thread!" when `process.active_thread` is null, otherwise
returns the designated thread. -/
def current_thread (p : process_context) : Except String emulator_thread :=
  match p.active_thread with
  | none => Except.error "No active thread!"
  | some t => Except.ok t

/-- Per-thread state a snapshot records (spec §6: id, engine register
blob, TEB address, wait state). -/
structure thread_record where
  tid : Nat
  registers : List Nat
  teb : Nat
  wait_state : Nat
deriving DecidableEq

/-- The observable state of the emulator that snapshots and serialization
cover (spec §8: memory bytes, per-thread register state, handle table,
thread table, clocks). Memory is address/byte pairs; handles map handle
values to object ids. -/
structure observable_state where
  memory : List (Nat × Nat)
  threads : List thread_record
  handles : List (Nat × Nat)
  system_time : Nat
  steady_time : Nat
deriving DecidableEq

/-- The emulator with its single snapshot slot, mirroring the member
`std::vector<std::byte> process_snapshot_` of `windows_emulator`
(one byte vector, hence at most one retained snapshot). -/
structure windows_emulator_state where
  state : observable_state
  process_snapshot_ : List Nat
deriving DecidableEq

/-- Encode one word of the framed stream. -/
def encNat (n : Nat) : List Nat := [n]

/-- Encode a pair as two consecutive words. -/
def encPairNat (p : Nat × Nat) : List Nat := [p.1, p.2]

/-- Encode a list as a length prefix followed by the encoded elements
(the framing of the spec's snapshot byte stream). -/
def encList {α : Type} (f : α → List Nat) (xs : List α) : List Nat :=
  xs.length :: (xs.map f).flatten

/-- Encode a thread record: id, register blob, TEB address, wait state. -/
def encThread (t : thread_record) : List Nat :=
  encNat t.tid ++ (encList encNat t.registers ++ (encNat t.teb ++ encNat t.wait_state))

/-- Encode the observable state in the spec's section order: memory
regions, handle table, per-thread state, process scalars (clocks). -/
def encState (s : observable_state) : List Nat :=
  encList encPairNat s.memory ++ (encList encThread s.threads ++
    (encList encPairNat s.handles ++ (encNat s.system_time ++ encNat s.steady_time)))

/-- Decode one word. -/
def decNat : List Nat → Option (Nat × List Nat)
  | [] => none
  | n :: r => some (n, r)

/-- Decode a pair of words. -/
def decPairNat : List Nat → Option ((Nat × Nat) × List Nat)
  | a :: b :: r => some ((a, b), r)
  | _ => none

/-- Decode exactly `n` elements with `f`. -/
def decCount {α : Type} (f : List Nat → Option (α × List Nat)) :
    Nat → List Nat → Option (List α × List Nat)
  | 0, r => some ([], r)
  | n + 1, r =>
    match f r with
    | none => none
    | some (a, r1) =>
      match decCount f n r1 with
      | none => none
      | some (as, r2) => some (a :: as, r2)

/-- Decode a length-prefixed list. -/
def decList {α : Type} (f : List Nat → Option (α × List Nat))
    (bs : List Nat) : Option (List α × List Nat) :=
  match decNat bs with
  | none => none
  | some (n, r) => decCount f n r

/-- Decode a thread record. -/
def decThread (bs : List Nat) : Option (thread_record × List Nat) :=
  match decNat bs with
  | none => none
  | some (tid, r1) =>
    match decList decNat r1 with
    | none => none
    | some (regs, r2) =>
      match decNat r2 with
      | none => none
      | some (teb, r3) =>
        match decNat r3 with
        | none => none
        | some (w, r4) => some (⟨tid, regs, teb, w⟩, r4)

/-- Decode the observable state, consuming the sections in order. -/
def decState (bs : List Nat) : Option (observable_state × List Nat) :=
  match decList decPairNat bs with
  | none => none
  | some (mem, r1) =>
    match decList decThread r1 with
    | none => none
    | some (ths, r2) =>
      match decList decPairNat r2 with
      | none => none
      | some (hs, r3) =>
        match decNat r3 with
        | none => none
        | some (st, r4) =>
          match decNat r4 with
          | none => none
          | some (mt, r5) => some (⟨mem, ths, hs, st, mt⟩, r5)

/-- Checksum closing the frame (spec §6: "and a CRC"), reduced modulo
2^32 as a 32-bit word. -/
def snapshot_crc (p : List Nat) : Nat := p.sum % 4294967296

/-- Modelled from the spec: `windows_emulator::serialize` (body not in the
sources). Spec §6: "A framed byte stream with a version header, then
ordered sections: ... and a CRC." -/
def serialize_state (s : observable_state) : List Nat :=
  1 :: (encState s ++ [snapshot_crc (encState s)])

/-- Modelled from the spec: `windows_emulator::deserialize` (body not in
the sources). Checks the version header and the CRC, then decodes the
sections in order; fails on any mismatch. -/
def deserialize_state (bs : List Nat) : Option observable_state :=
  match bs with
  | [] => none
  | v :: rest =>
    if v = 1 then
      match decState rest with
      | some (s, [c]) =>
        if c = snapshot_crc rest.dropLast then some s else none
      | _ => none
    else none

/-- Modelled from the spec: `windows_emulator::serialize` at the facade
level serializes the complete observable state. -/
def windows_emulator_serialize (e : windows_emulator_state) : List Nat :=
  serialize_state e.state

/-- Modelled from the spec: `windows_emulator::deserialize` reconstructs
the emulator's observable state from the stream. -/
def windows_emulator_deserialize (bs : List Nat) : Option windows_emulator_state :=
  match deserialize_state bs with
  | none => none
  | some s => some ⟨s, []⟩

/-- Modelled from the spec: `windows_emulator::save_snapshot` (body not in
the sources) captures the observable state into the single
`process_snapshot_` slot, overwriting its previous content. -/
def save_snapshot (e : windows_emulator_state) : windows_emulator_state :=
  ⟨e.state, serialize_state e.state⟩

/-- Modelled from the spec: `windows_emulator::restore_snapshot` (body not
in the sources) reinstates the observable state recorded in
`process_snapshot_`; fails if the slot holds no valid snapshot. -/
def restore_snapshot (e : windows_emulator_state) : Option windows_emulator_state :=
  match deserialize_state e.process_snapshot_ with
  | none => none
  | some s => some ⟨s, e.process_snapshot_⟩

/-- A thread as the cooperative scheduler sees it: runnable, or waiting
with an optional deadline (spec §4.3). -/
structure sched_thread where
  tid : Nat
  runnable : Bool
  deadline : Option Nat
deriving DecidableEq

/-- Scheduler state: the thread table, the index of the active thread,
and the count of guest instructions executed so far. -/
structure sched_state where
  threads : List sched_thread
  active : Nat
  executed : Nat
deriving DecidableEq

/-- Scheduler configuration: the `use_relative_time_` flag of the facade
and the instruction quantum between scheduling decisions. -/
structure sched_config where
  use_relative_time_ : Bool
  quantum : Nat
deriving DecidableEq

/-- Wake every waiter whose deadline has passed (spec §5: expired waits
complete with timeout before runnable threads are considered). -/
def wake_expired (now : Nat) (ts : List sched_thread) : List sched_thread :=
  ts.map fun t =>
    match t.deadline with
    | some d => if d ≤ now then { t with runnable := true, deadline := none } else t
    | none => t

/-- Round-robin scan for the next runnable thread, starting at index `i`
and trying at most `fuel` slots. -/
def find_runnable_from (ts : List sched_thread) : Nat → Nat → Option Nat
  | _, 0 => none
  | i, fuel + 1 =>
    match ts.get? (i % ts.length) with
    | some t =>
      if t.runnable then some (i % ts.length)
      else find_runnable_from ts (i + 1) fuel
    | none => none

/-- Modelled from the spec: one scheduling decision of the run loop (body
of `windows_emulator::start` / `perform_thread_switch` not in the
sources). The quantum elapses; the current time is the instruction count
in relative-time mode and an external host-clock reading otherwise;
expired waits complete; the next runnable thread (round-robin) becomes
active. -/
def sched_step (cfg : sched_config) (host_clock : Nat → Nat)
    (s : sched_state) : sched_state :=
  let executed := s.executed + cfg.quantum
  let now := if cfg.use_relative_time_ then executed else host_clock executed
  let ts := wake_expired now s.threads
  let next := (find_runnable_from ts (s.active + 1) ts.length).getD s.active
  ⟨ts, next, executed⟩

/-- Iterate the scheduler for `n` quanta. -/
def sched_run (cfg : sched_config) (host_clock : Nat → Nat)
    (s : sched_state) : Nat → sched_state
  | 0 => s
  | n + 1 => sched_run cfg host_clock (sched_step cfg host_clock s) n

/-- The continuation an `on_syscall` callback returns (spec §4.4:
continue, skip with a specified status, or abort). -/
inductive hook_continuation where
  | run_instruction
  | skip_instruction (status : Nat)
  | abort_execution
deriving DecidableEq

/-- The guest-visible registers the dispatcher touches: the service id in
RAX and the instruction pointer. -/
structure syscall_state where
  rax : Nat
  rip : Nat
deriving DecidableEq

/-- The arguments `on_syscall` is invoked with: service id, call-site
address, module name, service name. -/
structure syscall_event where
  service_id : Nat
  address : Nat
  mod_name : String
  service_name : String
deriving DecidableEq

/-- Modelled from the spec: dispatch of a syscall whose service id is not
in the service table (dispatcher body not in the sources). The
`on_syscall` callback receives the id, the call-site address, the module
name and an empty service name; continue writes STATUS_SUCCESS, skip
writes the specified 32-bit status into RAX; both advance RIP past the
two-byte `syscall` instruction; abort leaves the state for the run loop
to stop. Returns the callback invocation (if any) and the new state. -/
def dispatch_unknown_syscall (table : List (Nat × String))
    (cb : syscall_event → hook_continuation) (mod_name : String)
    (s : syscall_state) : Option syscall_event × syscall_state :=
  match assoc_find table s.rax with
  | some _ => (none, s)
  | none =>
    let ev : syscall_event := ⟨s.rax, s.rip, mod_name, ""⟩
    match cb ev with
    | .run_instruction => (some ev, ⟨0, s.rip + 2⟩)
    | .skip_instruction status => (some ev, ⟨status % 4294967296, s.rip + 2⟩)
    | .abort_execution => (some ev, s)

/-- The error classes of spec §7: guest faults, emulation errors, host
I/O errors. -/
inductive error_class where
  | guest_access_violation
  | guest_invalid_syscall
  | guest_privileged_instruction
  | emulation_failure
  | host_io_failure
deriving DecidableEq

/-- How an error reaches its consumer: as an NT exception raised into the
guest thread, as an NTSTATUS return from a syscall handler, as a typed
failure surfaced to the host caller, or propagated to the caller of
`start`. -/
inductive error_delivery where
  | guest_nt_exception
  | guest_status_return
  | host_typed_failure
  | host_propagation
deriving DecidableEq

/-- Guest faults: access violations, invalid syscalls, privileged
instructions. -/
def is_guest_fault : error_class → Bool
  | .guest_access_violation => true
  | .guest_invalid_syscall => true
  | .guest_privileged_instruction => true
  | _ => false

/-- Deliveries that surface on the host side of the boundary. -/
def is_host_delivery : error_delivery → Bool
  | .host_typed_failure => true
  | .host_propagation => true
  | _ => false

/-- Modelled from the spec: how each error class is surfaced (spec §7,
error-handling code not in the sources). Guest faults become NT
exceptions raised into the active thread; emulation errors become typed
failures for the host caller; host I/O errors become NTSTATUS returns
when raised inside a syscall handler and otherwise propagate to the
caller of `start`. -/
def surface_error (e : error_class) (in_syscall_handler : Bool) : error_delivery :=
  match e with
  | .guest_access_violation => .guest_nt_exception
  | .guest_invalid_syscall => .guest_nt_exception
  | .guest_privileged_instruction => .guest_nt_exception
  | .emulation_failure => .host_typed_failure
  | .host_io_failure =>
    if in_syscall_handler then .guest_status_return else .host_propagation

/-- Scanning for a host port whose only preimage is `p` yields `p`. -/
theorem get_emulator_port_of_unique_value :
    ∀ (m : List (Nat × Nat)) (p h : Nat),
      assoc_find m p = some h →
      (∀ q h2, (q, h2) ∈ m → h2 = h → q = p) →
      get_emulator_port m h = p := by
  intro m
  induction m with
  | nil => intro p h hl _; simp [assoc_find] at hl
  | cons kv rest ih =>
    intro p h hl hinj
    obtain ⟨k, v⟩ := kv
    by_cases hv : v = h
    · have hk : k = p := hinj k v (List.mem_cons_self _ _) hv
      simp [get_emulator_port, hv, hk]
    · have hk : k ≠ p := by
        intro hkp
        rw [assoc_find, if_pos hkp] at hl
        exact hv (Option.some.inj hl)
      rw [get_emulator_port, if_neg hv]
      apply ih p h
      · rw [assoc_find, if_neg hk] at hl
        exact hl
      · intro q h2 hq hh
        exact hinj q h2 (List.mem_cons_of_mem _ hq) hh

/-- C1 (corrected): the roundtrip get_emulator_port ∘ get_host_port is the
identity on every emulator port that has an entry in the configured
port_mappings, provided no other emulator port maps to the same host
port; for such a port p ↦ h, get_host_port p = h and
get_emulator_port h = p. (The roundtrip is not the identity on arbitrary
ports: see the counterexample.) -/
theorem C1_port_roundtrip (m : List (Nat × Nat)) (p h : Nat)
    (hlook : assoc_find m p = some h)
    (hinj : ∀ q h2, (q, h2) ∈ m → h2 = h → q = p) :
    get_host_port m p = h ∧ get_emulator_port m h = p ∧
      get_emulator_port m (get_host_port m p) = p := by
  have h1 : get_host_port m p = h := by simp [get_host_port, hlook]
  have h2 : get_emulator_port m h = p :=
    get_emulator_port_of_unique_value m p h hlook hinj
  exact ⟨h1, h2, by rw [h1]; exact h2⟩

/-- C1 witness: with the mapping 8080 ↦ 80 of the spec's example,
get_host_port 8080 = 80, get_emulator_port 80 = 8080, and the roundtrip
fixes 8080. -/
theorem C1_port_roundtrip_witness :
    get_host_port [(8080, 80)] 8080 = 80 ∧
      get_emulator_port [(8080, 80)] 80 = 8080 ∧
      get_emulator_port [(8080, 80)] (get_host_port [(8080, 80)] 8080) = 8080 :=
  C1_port_roundtrip [(8080, 80)] 8080 80 (by decide)
    (by intro q h2 hq _; rw [List.mem_singleton, Prod.mk.injEq] at hq; exact hq.1)

/-- C1 counterexample: with the spec's own configuration 8080 ↦ 80, the
roundtrip is not the identity at p = 80: get_host_port 80 = 80 (80 has no
entry) and get_emulator_port 80 = 8080 ≠ 80. -/
theorem C1_port_roundtrip_counterexample :
    get_emulator_port [(8080, 80)] (get_host_port [(8080, 80)] 80) = 8080 ∧
      (8080 : Nat) ≠ 80 := by
  decide

/-- Insert-or-assign really maps the key to the new value. -/
theorem assoc_find_pm_assign :
    ∀ (m : List (Nat × Nat)) (p h : Nat),
      assoc_find (pm_assign m p h) p = some h := by
  intro m
  induction m with
  | nil => intro p h; simp [pm_assign, assoc_find]
  | cons kv rest ih =>
    intro p h
    obtain ⟨k, v⟩ := kv
    by_cases hk : k = p
    · simp [pm_assign, hk, assoc_find]
    · simp [pm_assign, hk, assoc_find, ih]

/-- A key absent from the key list is not found. -/
theorem assoc_find_of_not_mem_keys :
    ∀ (m : List (Nat × Nat)) (p : Nat),
      p ∉ m.map Prod.fst → assoc_find m p = none := by
  intro m
  induction m with
  | nil => intro p _; rfl
  | cons kv rest ih =>
    intro p hp
    obtain ⟨k, v⟩ := kv
    rw [List.map_cons, List.mem_cons] at hp
    push_neg at hp
    rw [assoc_find, if_neg (fun hk => hp.1 hk.symm)]
    exact ih p hp.2

/-- Erasing a key removes it (keys are unique in the unordered_map). -/
theorem assoc_find_pm_erase :
    ∀ (m : List (Nat × Nat)) (p : Nat),
      (m.map Prod.fst).Nodup → assoc_find (pm_erase m p) p = none := by
  intro m
  induction m with
  | nil => intro p _; rfl
  | cons kv rest ih =>
    intro p hnd
    obtain ⟨k, v⟩ := kv
    rw [List.map_cons, List.nodup_cons] at hnd
    by_cases hk : k = p
    · rw [pm_erase, if_pos hk]
      exact assoc_find_of_not_mem_keys rest p (hk ▸ hnd.1)
    · rw [pm_erase, if_neg hk, assoc_find, if_neg hk]
      exact ih p hnd.2

/-- C9 (confirmed): map_port with equal ports removes any existing entry
for the port (afterwards get_host_port is the identity there and the port
has no entry), and with distinct ports installs or overwrites the mapping;
in both cases get_host_port then sends the emulator port to the host
port. -/
theorem C9_map_port_semantics (m : List (Nat × Nat)) (p h : Nat)
    (hnd : (m.map Prod.fst).Nodup) :
    get_host_port (map_port m p h) p = h ∧
      (p = h → assoc_find (map_port m p h) p = none) ∧
      (p ≠ h → assoc_find (map_port m p h) p = some h) := by
  by_cases hp : p = h
  · subst hp
    have he : assoc_find (map_port m p p) p = none := by
      rw [map_port, if_neg (by simp)]
      exact assoc_find_pm_erase m p hnd
    refine ⟨by simp [get_host_port, he], fun _ => he, fun hc => absurd rfl hc⟩
  · have ha : assoc_find (map_port m p h) p = some h := by
      rw [map_port, if_pos hp]
      exact assoc_find_pm_assign m p h
    exact ⟨by simp [get_host_port, ha], fun hc => absurd hc hp, fun _ => ha⟩

/-- C9 witness: erasing via map_port 5 5 on a map containing 5 ↦ 9, and
overwriting via map_port 1 7 on a map containing 1 ↦ 2. -/
theorem C9_map_port_semantics_witness :
    (get_host_port (map_port [(1, 2), (5, 9)] 5 5) 5 = 5 ∧
        (5 = 5 → assoc_find (map_port [(1, 2), (5, 9)] 5 5) 5 = none) ∧
        ((5 : Nat) ≠ 5 → assoc_find (map_port [(1, 2), (5, 9)] 5 5) 5 = some 5)) ∧
      (get_host_port (map_port [(1, 2), (5, 9)] 1 7) 1 = 7 ∧
        ((1 : Nat) = 7 → assoc_find (map_port [(1, 2), (5, 9)] 1 7) 1 = none) ∧
        ((1 : Nat) ≠ 7 → assoc_find (map_port [(1, 2), (5, 9)] 1 7) 1 = some 7)) :=
  ⟨C9_map_port_semantics [(1, 2), (5, 9)] 5 5 (by decide),
    C9_map_port_semantics [(1, 2), (5, 9)] 1 7 (by decide)⟩

/-- C10 (confirmed): a default-constructed emulator_settings has
registry_directory "./registry", empty emulation_root, all four boolean
options false, and empty port_mappings, path_mappings and modules. -/
theorem C10_settings_defaults :
    ( {} : emulator_settings).registry_directory = "./registry" ∧
      ( {} : emulator_settings).emulation_root = "" ∧
      ( {} : emulator_settings).verbose_calls = false ∧
      ( {} : emulator_settings).disable_logging = false ∧
      ( {} : emulator_settings).silent_until_main = false ∧
      ( {} : emulator_settings).use_relative_time = false ∧
      ( {} : emulator_settings).port_mappings = [] ∧
      ( {} : emulator_settings).path_mappings = [] ∧
      ( {} : emulator_settings).modules = [] :=
  ⟨rfl, rfl, rfl, rfl, rfl, rfl, rfl, rfl, rfl⟩

/-- C5 (confirmed): current_thread fails (with "No active thread!") iff
process.active_thread designates no thread, and whenever active_thread
designates a thread t, current_thread returns exactly t — so at most one
thread is ever designated active, and it is the one returned. -/
theorem C5_current_thread_active (p : process_context) :
    ((∃ e, current_thread p = Except.error e) ↔ p.active_thread = none) ∧
      (∀ t, p.active_thread = some t → current_thread p = Except.ok t) := by
  constructor
  · constructor
    · intro ⟨e, he⟩
      cases hp : p.active_thread with
      | none => rfl
      | some t => rw [current_thread, hp] at he; cases he
    · intro hp
      exact ⟨"No active thread!", by rw [current_thread, hp]⟩
  · intro t ht
    rw [current_thread, ht]

/-- C5 witness: with thread 1 active, current_thread returns it; with no
active thread, current_thread fails. -/
theorem C5_current_thread_active_witness :
    current_thread ⟨some ⟨1⟩⟩ = Except.ok ⟨1⟩ ∧
      ∃ e, current_thread ⟨none⟩ = Except.error e :=
  ⟨(C5_current_thread_active ⟨some ⟨1⟩⟩).2 ⟨1⟩ rfl,
    (C5_current_thread_active ⟨none⟩).1.2 rfl⟩

/-- Decoding a word after encoding it returns it and the rest. -/
theorem decNat_encNat (n : Nat) (r : List Nat) :
    decNat (encNat n ++ r) = some (n, r) := rfl

/-- Decoding a pair after encoding it returns it and the rest. -/
theorem decPairNat_encPairNat (p : Nat × Nat) (r : List Nat) :
    decPairNat (encPairNat p ++ r) = some (p, r) := rfl

/-- Decoding a count of encoded elements returns them and the rest. -/
theorem decCount_enc {α : Type} (f : List Nat → Option (α × List Nat))
    (g : α → List Nat) (hf : ∀ a r, f (g a ++ r) = some (a, r)) :
    ∀ (xs : List α) (r : List Nat),
      decCount f xs.length ((xs.map g).flatten ++ r) = some (xs, r) := by
  intro xs
  induction xs with
  | nil => intro r; simp [decCount]
  | cons a as ih =>
    intro r
    simp only [List.map_cons, List.flatten_cons, List.append_assoc,
      List.length_cons, decCount, hf, ih]

/-- Decoding a length-prefixed list after encoding it returns it. -/
theorem decList_encList {α : Type} (f : List Nat → Option (α × List Nat))
    (g : α → List Nat) (hf : ∀ a r, f (g a ++ r) = some (a, r))
    (xs : List α) (r : List Nat) :
    decList f (encList g xs ++ r) = some (xs, r) := by
  simp only [encList, List.cons_append, decList, decNat]
  exact decCount_enc f g hf xs r

/-- Decoding a thread record after encoding it returns it. -/
theorem decThread_encThread (t : thread_record) (r : List Nat) :
    decThread (encThread t ++ r) = some (t, r) := by
  simp only [encThread, List.append_assoc, decThread, decNat_encNat,
    decList_encList decNat encNat decNat_encNat]

/-- Decoding the observable state after encoding it returns it. -/
theorem decState_encState (s : observable_state) (r : List Nat) :
    decState (encState s ++ r) = some (s, r) := by
  simp only [encState, List.append_assoc, decState,
    decList_encList decPairNat encPairNat decPairNat_encPairNat,
    decList_encList decThread encThread decThread_encThread,
    decNat_encNat]

/-- Deserializing a serialized observable state recovers it exactly. -/
theorem deserialize_serialize_state (s : observable_state) :
    deserialize_state (serialize_state s) = some s := by
  simp [serialize_state, deserialize_state, decState_encState,
    List.dropLast_concat]

/-- C2 (confirmed): whatever the observable state has become since the
save, restoring the snapshot taken by save_snapshot succeeds and brings
the observable state (memory, threads, handles, clocks) back to its exact
value at the time of the save. -/
theorem C2_snapshot_restore_identity (e : windows_emulator_state)
    (changed : observable_state) :
    Option.map windows_emulator_state.state
        (restore_snapshot ⟨changed, (save_snapshot e).process_snapshot_⟩) =
      some e.state := by
  rw [save_snapshot, restore_snapshot]
  rw [deserialize_serialize_state e.state]
  rfl

/-- C3 (confirmed): serialize, deserialize, serialize produces output
byte-identical to the first serialize. -/
theorem C3_serialize_roundtrip (e : windows_emulator_state) :
    Option.map windows_emulator_serialize
        (windows_emulator_deserialize (windows_emulator_serialize e)) =
      some (windows_emulator_serialize e) := by
  rw [windows_emulator_serialize, windows_emulator_deserialize,
    deserialize_serialize_state e.state]
  rfl

/-- C4 (confirmed): snapshots are single-slot. After two saves (first in
state sA, then in state sB), the one process_snapshot_ slot holds exactly
the serialization of sB — the earlier snapshot is overwritten, so at most
one snapshot is retained — and a subsequent restore reinstates sB, the
state captured by the most recent save. -/
theorem C4_snapshot_single_slot (e : windows_emulator_state)
    (sA sB : observable_state) :
    (save_snapshot ⟨sB, (save_snapshot ⟨sA, e.process_snapshot_⟩).process_snapshot_⟩).process_snapshot_ =
        serialize_state sB ∧
      Option.map windows_emulator_state.state
          (restore_snapshot
            (save_snapshot ⟨sB, (save_snapshot ⟨sA, e.process_snapshot_⟩).process_snapshot_⟩)) =
        some sB := by
  constructor
  · rfl
  · rw [save_snapshot, save_snapshot, restore_snapshot]
    rw [deserialize_serialize_state sB]
    rfl

/-- C6 (confirmed): error classes never cross the guest/host boundary —
a guest fault is never surfaced as a host-side delivery, and a host I/O
error is never delivered into the guest as an NT exception, whether or
not it arises inside a syscall handler. -/
theorem C6_error_class_separation :
    ∀ (e : error_class) (in_handler : Bool),
      (is_guest_fault e && is_host_delivery (surface_error e in_handler)) = false ∧
        (decide (e = error_class.host_io_failure) &&
            decide (surface_error e in_handler = error_delivery.guest_nt_exception)) =
          false := by
  intro e in_handler
  cases e <;> cases in_handler <;>
    simp [surface_error, is_guest_fault, is_host_delivery]

/-- One scheduling step ignores the host clock in relative-time mode. -/
theorem sched_step_clock_independent (cfg : sched_config)
    (h : cfg.use_relative_time_ = true) (c1 c2 : Nat → Nat) (s : sched_state) :
    sched_step cfg c1 s = sched_step cfg c2 s := by
  simp [sched_step, h]

/-- C7 (confirmed): in relative-time mode the scheduler is deterministic —
two runs from the same state with the same configuration make identical
scheduling decisions for any number of quanta, whatever host clocks the
two runs would otherwise observe. -/
theorem C7_scheduler_determinism (cfg : sched_config) (c1 c2 : Nat → Nat)
    (s : sched_state) (n : Nat) (h : cfg.use_relative_time_ = true) :
    sched_run cfg c1 s n = sched_run cfg c2 s n := by
  induction n generalizing s with
  | zero => rfl
  | succ n ih =>
    rw [sched_run, sched_run, sched_step_clock_independent cfg h c1 c2 s]
    exact ih _

/-- C7 witness: with use_relative_time_ set, a two-thread state runs
identically under two different host clocks for three quanta. -/
theorem C7_scheduler_determinism_witness :
    sched_run ⟨true, 100⟩ (fun n => n) ⟨[⟨1, true, none⟩, ⟨2, false, some 150⟩], 0, 0⟩ 3 =
      sched_run ⟨true, 100⟩ (fun n => 2 * n + 7)
        ⟨[⟨1, true, none⟩, ⟨2, false, some 150⟩], 0, 0⟩ 3 :=
  C7_scheduler_determinism ⟨true, 100⟩ (fun n => n) (fun n => 2 * n + 7)
    ⟨[⟨1, true, none⟩, ⟨2, false, some 150⟩], 0, 0⟩ 3 rfl

/-- C8 (confirmed): for a service id absent from the service table, the
on_syscall callback is invoked with the id, the call-site address, the
module name and an empty service name; and when the callback answers
skip with a status, the guest observes that status (as a 32-bit value) in
RAX and RIP advanced past the two-byte syscall instruction. -/
theorem C8_unknown_syscall_dispatch (table : List (Nat × String))
    (cb : syscall_event → hook_continuation) (mod_name : String)
    (s : syscall_state) (status : Nat)
    (hmiss : assoc_find table s.rax = none)
    (hskip : cb ⟨s.rax, s.rip, mod_name, ""⟩ = hook_continuation.skip_instruction status) :
    (dispatch_unknown_syscall table cb mod_name s).1 =
        some ⟨s.rax, s.rip, mod_name, ""⟩ ∧
      (dispatch_unknown_syscall table cb mod_name s).2.rax = status % 4294967296 ∧
      (dispatch_unknown_syscall table cb mod_name s).2.rip = s.rip + 2 := by
  simp [dispatch_unknown_syscall, hmiss, hskip]

/-- C8 witness: service id 4096 is not in a one-entry table; the callback
skips with STATUS_NOT_IMPLEMENTED (0xC0000002); RAX becomes that status
and RIP advances from 70000 to 70002. -/
theorem C8_unknown_syscall_dispatch_witness :
    (dispatch_unknown_syscall [(1, "NtClose")]
          (fun _ => hook_continuation.skip_instruction 3221225474) "app.exe"
          ⟨4096, 70000⟩).1 =
        some ⟨4096, 70000, "app.exe", ""⟩ ∧
      (dispatch_unknown_syscall [(1, "NtClose")]
          (fun _ => hook_continuation.skip_instruction 3221225474) "app.exe"
          ⟨4096, 70000⟩).2.rax = 3221225474 % 4294967296 ∧
      (dispatch_unknown_syscall [(1, "NtClose")]
          (fun _ => hook_continuation.skip_instruction 3221225474) "app.exe"
          ⟨4096, 70000⟩).2.rip = 70000 + 2 :=
  C8_unknown_syscall_dispatch [(1, "NtClose")]
    (fun _ => hook_continuation.skip_instruction 3221225474) "app.exe"
    ⟨4096, 70000⟩ 3221225474 (by decide) rfl

end WinEmu
